import Mathlib

/-!
Shallow embedding of the Approval & Activity Workflow Engine of this
repository (the Express service in src/server.js).  Directories of the
Obsidian vault become lists of named files, file contents stay strings,
and the JavaScript string primitives used by the code (split, includes,
replace-first, parseInt, trim, truthiness) are reimplemented over
character lists so that every definition evaluates inside the kernel.
-/

namespace AIEmployee

/-- JavaScript whitespace test used where the source relies on trim and
on parseInt skipping leading whitespace. -/
def isWs (c : Char) : Bool :=
  c == ' ' || c == '\t' || c == '\n' || c == '\r'

/-- Trim of both ends, as String.prototype.trim does. -/
def trimChars (cs : List Char) : List Char :=
  ((cs.dropWhile isWs).reverse.dropWhile isWs).reverse

/-- JS s.trim(). -/
def jsTrim (s : String) : String := String.mk (trimChars s.data)

/-- Fuel-driven splitter behind jsSplit; fuel is always one more than the
number of remaining characters, so the zero-fuel branch is unreachable
for the nonempty separators the code uses. -/
def splitFuel (sep : List Char) : Nat → List Char → List Char → List (List Char)
  | 0, cs, acc => [acc.reverse ++ cs]
  | fuel + 1, cs, acc =>
    match cs with
    | [] => [acc.reverse]
    | c :: rest =>
      if sep.isPrefixOf (c :: rest) then
        acc.reverse :: splitFuel sep fuel ((c :: rest).drop sep.length) []
      else
        splitFuel sep fuel rest (c :: acc)

/-- JS s.split(sep) for a nonempty literal separator: non-overlapping,
left to right, empty pieces kept. -/
def jsSplit (s sep : String) : List String :=
  (splitFuel sep.data (s.data.length + 1) s.data []).map String.mk

/-- JS s.includes(pat): pat occurs in s exactly when splitting on pat
yields at least two pieces. -/
def containsSubstr (s pat : String) : Bool :=
  match jsSplit s pat with
  | _ :: _ :: _ => true
  | _ => false

/-- Array.prototype.join with a separator. -/
def joinWithStr (sep : String) : List String → String
  | [] => ""
  | [x] => x
  | x :: y :: xs => x ++ sep ++ joinWithStr sep (y :: xs)

/-- JS s.replace(pat, repl) with a non-global pattern: only the first
occurrence is replaced, and a string without the pattern is returned
unchanged. -/
def jsReplaceFirst (s pat repl : String) : String :=
  match jsSplit s pat with
  | p0 :: p1 :: rest => p0 ++ repl ++ joinWithStr pat (p1 :: rest)
  | _ => s

/-- JS s.endsWith(suffix). -/
def strEndsWith (s suffix : String) : Bool :=
  suffix.data.isSuffixOf s.data

/-- JS s.startsWith(pre), used for the anchored frontmatter regex. -/
def strStartsWith (s pre : String) : Bool :=
  pre.data.isPrefixOf s.data

/-- Decimal digit value. -/
def digitVal (c : Char) : Option Nat :=
  if c.isDigit then some (c.toNat - 48) else none

/-- Hexadecimal digit value, for the 0x branch of parseInt. -/
def hexDigitVal (c : Char) : Option Nat :=
  if c.isDigit then some (c.toNat - 48)
  else if 'a' ≤ c && c ≤ 'f' then some (c.toNat - 87)
  else if 'A' ≤ c && c ≤ 'F' then some (c.toNat - 55)
  else none

/-- Longest run of digits at the head of the list, none when the first
character is not a digit (parseInt then yields NaN). -/
def parseDigitRun (dv : Char → Option Nat) (base : Nat) (cs : List Char) : Option Nat :=
  match cs.takeWhile (fun c => (dv c).isSome) with
  | [] => none
  | ds => some (ds.foldl (fun acc c => acc * base + (dv c).getD 0) 0)

/-- JS parseInt with no radix argument: skip whitespace, optional sign,
then a 0x-prefixed hexadecimal or a decimal digit run; none models NaN.
The none input models parseInt(undefined). -/
def jsParseInt : Option String → Option Int
  | none => none
  | some s =>
    let cs := s.data.dropWhile isWs
    let sc : Int × List Char :=
      match cs with
      | '-' :: r => (-1, r)
      | '+' :: r => (1, r)
      | _ => (1, cs)
    match sc.2 with
    | '0' :: 'x' :: r => (parseDigitRun hexDigitVal 16 r).map (fun n => sc.1 * n)
    | '0' :: 'X' :: r => (parseDigitRun hexDigitVal 16 r).map (fun n => sc.1 * n)
    | _ => (parseDigitRun digitVal 10 sc.2).map (fun n => sc.1 * n)

/-- parseInt(file.split(underscore)[1]) from getPendingApprovals. -/
def parsedId (f : String) : Option Int :=
  jsParseInt ((jsSplit f "_").get? 1)

/-- id field of a listed approval: the parsed filename id, or Date.now()
(the ms argument) when the parse yields NaN or the falsy 0. -/
def approvalIdOf (f : String) (ms : Int) : Int :=
  match parsedId f with
  | some n => if n = 0 then ms else n
  | none => ms

/-- One line of the frontmatter loop: split on the colon, keep the pair
when the untrimmed key is truthy and a colon was present; a later
assignment to the same key overwrites (last binding wins via objGet). -/
def parseFrontmatterLine (fm : List (String × String)) (line : String) : List (String × String) :=
  match jsSplit line ":" with
  | key :: v :: vs =>
    if key ≠ "" then fm ++ [(jsTrim key, jsTrim (joinWithStr ":" (v :: vs)))] else fm
  | _ => fm

/-- parseFrontmatter from server.js: the anchored lazy regex matches a
leading delimiter line and captures up to the first closing delimiter;
no match yields the empty object. -/
def parseFrontmatter (content : String) : List (String × String) :=
  if strStartsWith content "---\n" then
    match jsSplit (String.mk (content.data.drop 4)) "\n---" with
    | fm :: _ :: _ => (jsSplit fm "\n").foldl parseFrontmatterLine []
    | _ => []
  else []

/-- JS object property read over the assignment list: the last write to
a key wins, absence is undefined (none). -/
def objGet (kvs : List (String × String)) (k : String) : Option String :=
  kvs.foldl (fun acc kv => if kv.1 = k then some kv.2 else acc) none

/-- JS (x || d) for string-valued x: undefined and the empty string are
falsy. -/
def jsStrOr (o : Option String) (d : String) : String :=
  match o with
  | some s => if s = "" then d else s
  | none => d

/-- Truthy projection of a string property: none for undefined and for
the falsy empty string. -/
def jsStrTruthy (o : Option String) : Option String :=
  match o with
  | some s => if s = "" then none else some s
  | none => none

/-- An entry of a day-bucket log file.  The decision entries written by
the approve route carry type, action and approvalId; entries written by
other components carry action_type and description. -/
structure LogEntry where
  timestamp : String
  action_type : Option String := none
  description : Option String := none
  type : Option String := none
  action : Option String := none
  approvalId : Option Int := none
deriving DecidableEq

/-- Stored content of a day-bucket file: parsed is a JSON array of
entries; corrupted models a present file whose text no longer parses as
JSON, carrying the entries the garbled text used to store.  JSON.parse
throws exactly on corrupted content. -/
inductive LogContent where
  | parsed (entries : List LogEntry)
  | corrupted (entries : List LogEntry)
deriving DecidableEq

/-- logAction from server.js over the day-bucket content: read and parse
the file, with a missing file or a parse failure leaving the entry list
empty, push the new entry, rewrite the whole file. -/
def logAction (log : Option LogContent) (e : LogEntry) : Option LogContent :=
  let logs := match log with
    | some (.parsed l) => l
    | _ => []
  some (.parsed (logs ++ [e]))

/-- The entries a day-bucket file holds, whether or not its text still
parses. -/
def storedLogEntries : Option LogContent → List LogEntry
  | none => []
  | some (.parsed l) => l
  | some (.corrupted l) => l

/-- Folding logAction over a fresh day-bucket. -/
def appendAll (es : List LogEntry) : Option LogContent :=
  es.foldl logAction none

/-- A JS primitive value, needed because the sample activity uses a
numeric id while real activities use the timestamp string. -/
inductive JsPrim where
  | num (n : Int)
  | str (s : String)
deriving DecidableEq

/-- A display-ready activity of the feed. -/
structure Activity where
  id : JsPrim
  type : Option String
  title : String
  description : String
  time : String
  icon : String
  iconColor : String
deriving DecidableEq

/-- getActivityTitle lookup table with its generic fallback. -/
def getActivityTitle (actionType : Option String) : String :=
  match actionType with
  | some "email_send" => "Email sent"
  | some "whatsapp_reply" => "WhatsApp replied"
  | some "payment_processed" => "Payment processed"
  | some "social_post" => "Social media post"
  | some "audit_completed" => "Audit completed"
  | _ => "Action performed"

/-- getActivityIcon lookup table with its fallback. -/
def getActivityIcon (actionType : Option String) : String :=
  match actionType with
  | some "email_send" => "fas fa-envelope"
  | some "whatsapp_reply" => "fab fa-whatsapp"
  | some "payment_processed" => "fas fa-credit-card"
  | some "social_post" => "fas fa-share-alt"
  | some "audit_completed" => "fas fa-chart-bar"
  | _ => "fas fa-cog"

/-- getActivityColor lookup table with its fallback. -/
def getActivityColor (actionType : Option String) : String :=
  match actionType with
  | some "email_send" => "#2563eb"
  | some "whatsapp_reply" => "#25d366"
  | some "payment_processed" => "#10b981"
  | some "social_post" => "#0077b5"
  | some "audit_completed" => "#f59e0b"
  | _ => "#6b7280"

/-- Rendering of an undefined value inside a JS template literal. -/
def jsShow (o : Option String) : String :=
  match o with
  | some s => s
  | none => "undefined"

/-- getActivityDescription: the stored description, or the template
fallback naming the action type. -/
def getActivityDescriptionOf (log : LogEntry) : String :=
  jsStrOr log.description ("Action: " ++ jsShow log.action_type)

/-- Modelled from the spec: toLocaleTimeString is a locale-dependent
rendering of a timestamp; no claim depends on its text, so the model
keeps the timestamp itself. -/
def toLocaleTimeString (s : String) : String := s

/-- Modelled from the spec: toLocaleDateString, as above. -/
def toLocaleDateString (s : String) : String := s

/-- The map body of getRecentActivities, turning a log entry into its
display activity. -/
def mkActivity (log : LogEntry) : Activity :=
  { id := .str log.timestamp
    type := log.action_type
    title := getActivityTitle log.action_type
    description := getActivityDescriptionOf log
    time := toLocaleTimeString log.timestamp
    icon := getActivityIcon log.action_type
    iconColor := getActivityColor log.action_type }

/-- The ambient clock of a request: the ISO string new Date().toISOString()
produces and the number Date.now() produces. -/
structure Clock where
  isoNow : String
  ms : Int
deriving DecidableEq

/-- getSampleActivities: the fixed seed feed served when no day-bucket
exists or its content does not parse. -/
def getSampleActivities (clock : Clock) : List Activity :=
  [{ id := .num 1
     type := some "email"
     title := "System initialized"
     description := "AI Employee started successfully"
     time := toLocaleTimeString clock.isoNow
     icon := "fas fa-rocket"
     iconColor := "#10b981" }]

/-- A typed approval record as getPendingApprovals builds it: explicit
fields plus the spread of the raw parsed metadata. -/
structure ApprovalRecord where
  id : Int
  file : String
  meta : List (String × String)
  title : Option String
  description : String
  amount : Option String
  recipient : String
deriving DecidableEq

/-- The record pushed for one pending .md file: id from the filename (or
the clock), title from subject falling back to action, and the literal
defaults of server.js; amount none models the numeric 0 default. -/
def mkApproval (f content : String) (ms : Int) : ApprovalRecord :=
  let meta := parseFrontmatter content
  { id := approvalIdOf f ms
    file := f
    meta := meta
    title := jsStrTruthy (objGet meta "subject") <|> jsStrTruthy (objGet meta "action")
    description := jsStrOr (objGet meta "description") "Requires approval"
    amount := jsStrTruthy (objGet meta "amount")
    recipient := jsStrOr (objGet meta "recipient") "Unknown" }

/-- Parsed stats side-file counters; absent keys are none. -/
structure StatsJson where
  weeklyRevenue : Option ℚ := none
  pendingTasks : Option ℚ := none
  unreadMessages : Option ℚ := none
  aiUptime : Option ℚ := none
deriving DecidableEq

/-- Content of the stats side-file: a parsed object, or text JSON.parse
rejects. -/
inductive StatsContent where
  | parsed (s : StatsJson)
  | corrupted
deriving DecidableEq

/-- The vault as the claims need it: the three approval buckets as
readdir listings (a none content is a file whose read fails), the day
bucket of today, the Dashboard.md document and the stats side-file. -/
structure VaultState where
  pending : List (String × Option String)
  approvedDir : List (String × Option String)
  rejectedDir : List (String × Option String)
  log : Option LogContent
  dashboardFile : Option String
  statsFile : Option StatsContent
deriving DecidableEq

/-- Loop of getPendingApprovals: read each .md file in listing order and
push its record; a failing read throws, and the surrounding catch turns
the whole listing into none (rendered as the empty list). -/
def getPendingApprovalsAux (ms : Int) : List (String × Option String) → Option (List ApprovalRecord)
  | [] => some []
  | (f, oc) :: rest =>
    if strEndsWith f ".md" then
      match oc with
      | none => none
      | some c => (getPendingApprovalsAux ms rest).map (fun l => mkApproval f c ms :: l)
    else getPendingApprovalsAux ms rest

/-- getPendingApprovals from server.js. -/
def getPendingApprovals (st : VaultState) (ms : Int) : List ApprovalRecord :=
  (getPendingApprovalsAux ms st.pending).getD []

/-- getRecentActivities from server.js: the last ten parsed entries of
today, mapped to activities in the order the slice keeps them; a missing
or unparsable bucket degrades to the sample feed. -/
def getRecentActivities (st : VaultState) (clock : Clock) : List Activity :=
  match st.log with
  | some (.parsed logs) => (logs.drop (logs.length - 10)).map mkActivity
  | _ => getSampleActivities clock

/-- The replacement text the decision rewrite splices in: the action
with a d appended, then the approved_at timestamp on the next line. -/
def decidedStatusLine (action ts : String) : String :=
  "status: " ++ action ++ "d\napproved_at: " ++ ts

/-- updateApprovalStatus from server.js: find the first pending file
whose name contains the decimal id, silently no-op when none matches,
otherwise rename it into Approved or Rejected and rewrite the first
pending status line.  The Bool is false when the post-rename read throws
(an unreadable file), in which case the file has moved unrewritten. -/
def updateApprovalStatus (st : VaultState) (approvalId : Int) (action : String) (ts : String) :
    VaultState × Bool :=
  match st.pending.find? (fun fc => containsSubstr fc.1 (toString approvalId)) with
  | none => (st, true)
  | some (f, oc) =>
    let pending2 := st.pending.filter (fun gc => gc.1 != f)
    match oc with
    | none =>
      (if action = "approve" then
        { st with pending := pending2, approvedDir := st.approvedDir ++ [(f, none)] }
       else
        { st with pending := pending2, rejectedDir := st.rejectedDir ++ [(f, none)] }, false)
    | some c =>
      let c2 := jsReplaceFirst c "status: pending" (decidedStatusLine action ts)
      (if action = "approve" then
        { st with pending := pending2, approvedDir := st.approvedDir ++ [(f, some c2)] }
       else
        { st with pending := pending2, rejectedDir := st.rejectedDir ++ [(f, some c2)] }, true)

/-- Shape of a JSON API reply together with its HTTP status. -/
structure ApiResponse where
  status : Nat
  success : Bool
  message : String
deriving DecidableEq

/-- The activity log entry the approve route writes. -/
def approvalLogEntry (i : Int) (a ts : String) : LogEntry :=
  { timestamp := ts, type := some "approval", action := some a, approvalId := some i }

/-- The POST /api/approve route: validate both fields are truthy, run
the status update, fire the external executor on approve (stateless
here), append the decision entry and reply with success; a storage
throw inside the update surfaces as the 500 catch. -/
def postApprove (st : VaultState) (approvalId : Option Int) (action : Option String)
    (clock : Clock) : VaultState × ApiResponse :=
  match approvalId, action with
  | some i, some a =>
    if i = 0 ∨ a = "" then
      (st, { status := 400, success := false, message := "Missing required fields" })
    else
      match updateApprovalStatus st i a clock.isoNow with
      | (st1, true) =>
        ({ st1 with log := logAction st1.log (approvalLogEntry i a clock.isoNow) },
         { status := 200, success := true, message := "Action " ++ a ++ "d successfully" })
      | (st1, false) =>
        (st1, { status := 500, success := false, message := "Failed to process approval" })
  | _, _ => (st, { status := 400, success := false, message := "Missing required fields" })

/-- The POST /api/process route: dispatch on the fixed action names; the
default branch throws Unknown action, which the catch downgrades to a
500 reply carrying the message. -/
def postProcess (st : VaultState) (action : Option String) : VaultState × ApiResponse :=
  match action with
  | some "emails" => (st, { status := 200, success := true, message := "emails processing started" })
  | some "whatsapp" => (st, { status := 200, success := true, message := "whatsapp processing started" })
  | some "audit" => (st, { status := 200, success := true, message := "audit processing started" })
  | some "report" => (st, { status := 200, success := true, message := "report processing started" })
  | _ => (st, { status := 500, success := false, message := "Unknown action" })

/-- The live counters of a snapshot. -/
structure Stats where
  weeklyRevenue : ℚ
  pendingTasks : ℚ
  unreadMessages : ℚ
  aiUptime : ℚ
deriving DecidableEq

/-- JS (x || d) for the numeric counters: undefined and 0 are falsy. -/
def jsOr (v : Option ℚ) (d : ℚ) : ℚ :=
  match v with
  | none => d
  | some x => if x = 0 then d else x

/-- The composed read model served by GET /api/dashboard. -/
structure DashboardSnapshot where
  aiActive : Bool
  pendingApprovals : List ApprovalRecord
  recentActivities : List Activity
  stats : Stats
  dashboardContent : String
deriving DecidableEq

/-- getDashboardTemplate: the seeded Dashboard.md text. -/
def getDashboardTemplate (clock : Clock) : String :=
  "---\nlast_updated: " ++ clock.isoNow ++ "\nstatus: active\n---\n\n\n" ++
  "# AI Employee Dashboard\n\n\n## Current Status\n- **AI Status**: Active\n" ++
  "- **Last Audit**: Today\n- **Uptime**: 99.8%\n\n\n## Pending Actions\n" ++
  "- [ ] Review emails (5 unread)\n- [ ] Process WhatsApp messages (2 urgent)\n" ++
  "- [ ] Generate weekly report\n\n\n## Recent Activity\n- " ++
  toLocaleDateString clock.isoNow ++ ": System initialized\n- " ++
  toLocaleDateString clock.isoNow ++ ": Dashboard created\n\n\n## Quick Stats\n" ++
  "- Weekly Revenue: $2,450\n- Tasks Completed: 42\n- Messages Processed: 128\n"

/-- getDefaultDashboardData: the static fallback snapshot. -/
def getDefaultDashboardData (clock : Clock) : DashboardSnapshot :=
  { aiActive := true
    pendingApprovals := []
    recentActivities := getSampleActivities clock
    stats := { weeklyRevenue := 2450, pendingTasks := 8, unreadMessages := 5, aiUptime := (99.8 : ℚ) }
    dashboardContent := getDashboardTemplate clock }

/-- The successful composition branch of getDashboardData. -/
def mkSnapshot (st : VaultState) (clock : Clock) (s : StatsJson) (dc : String) : DashboardSnapshot :=
  { aiActive := true
    pendingApprovals := getPendingApprovals st clock.ms
    recentActivities := getRecentActivities st clock
    stats :=
      { weeklyRevenue := jsOr s.weeklyRevenue 2450
        pendingTasks := jsOr s.pendingTasks 8
        unreadMessages := jsOr s.unreadMessages 5
        aiUptime := jsOr s.aiUptime (99.8 : ℚ) }
    dashboardContent := dc }

/-- getDashboardData from server.js: a failing stats read is caught
inline and replaced by the empty object, but a failing Dashboard.md read
or a stats JSON.parse throw reaches the outer catch and the whole
snapshot falls back to the static default. -/
def getDashboardData (st : VaultState) (clock : Clock) : DashboardSnapshot :=
  match st.dashboardFile with
  | none => getDefaultDashboardData clock
  | some dashboardContent =>
    match st.statsFile with
    | some .corrupted => getDefaultDashboardData clock
    | none => mkSnapshot st clock {} dashboardContent
    | some (.parsed s) => mkSnapshot st clock s dashboardContent

/-! Helper lemmas about the listing loop, shared by several claims. -/

/-- Every record the listing produces comes from one readable .md file
of the bucket, as the mkApproval record of that file. -/
theorem mem_getPendingApprovalsAux (ms : Int) :
    ∀ (lst : List (String × Option String)) (res : List ApprovalRecord),
      getPendingApprovalsAux ms lst = some res →
      ∀ r ∈ res, ∃ f c, (f, some c) ∈ lst ∧ strEndsWith f ".md" = true ∧
        r = mkApproval f c ms := by
  intro lst
  induction lst with
  | nil =>
    intro res h r hr
    simp [getPendingApprovalsAux] at h
    subst h
    simp at hr
  | cons fc rest ih =>
    intro res h r hr
    obtain ⟨f, oc⟩ := fc
    by_cases hmd : strEndsWith f ".md" = true
    · cases oc with
      | none => simp [getPendingApprovalsAux, hmd] at h
      | some c =>
        simp only [getPendingApprovalsAux, hmd, if_true, Option.map_eq_some'] at h
        obtain ⟨l2, hl2, hres⟩ := h
        subst hres
        rcases List.mem_cons.mp hr with hr | hr
        · exact ⟨f, c, by simp, hmd, hr⟩
        · obtain ⟨f2, c2, hmem, hmd2, hr2⟩ := ih l2 hl2 r hr
          exact ⟨f2, c2, by simp [hmem], hmd2, hr2⟩
    · simp only [getPendingApprovalsAux, hmd, if_false] at h
      obtain ⟨f2, c2, hmem, hmd2, hr2⟩ := ih res h r hr
      exact ⟨f2, c2, by simp [hmem], hmd2, hr2⟩

/-- Same statement lifted to getPendingApprovals. -/
theorem mem_getPendingApprovals (st : VaultState) (ms : Int) :
    ∀ r ∈ getPendingApprovals st ms, ∃ f c, (f, some c) ∈ st.pending ∧
      strEndsWith f ".md" = true ∧ r = mkApproval f c ms := by
  intro r hr
  unfold getPendingApprovals at hr
  cases haux : getPendingApprovalsAux ms st.pending with
  | none => rw [haux] at hr; simp at hr
  | some res =>
    rw [haux] at hr
    exact mem_getPendingApprovalsAux ms st.pending res haux r hr

/-- When one .md file of the bucket is unreadable, the loop throws and
the whole listing collapses to none. -/
theorem getPendingApprovalsAux_eq_none (ms : Int) :
    ∀ (lst : List (String × Option String)),
      (∃ fc ∈ lst, strEndsWith fc.1 ".md" = true ∧ fc.2 = none) →
      getPendingApprovalsAux ms lst = none := by
  intro lst
  induction lst with
  | nil => intro h; simp at h
  | cons fc rest ih =>
    intro h
    obtain ⟨f, oc⟩ := fc
    rcases h with ⟨gc, hmem, hmd, hnone⟩
    rcases List.mem_cons.mp hmem with heq | hmem2
    · subst heq
      simp only at hmd hnone
      subst hnone
      simp [getPendingApprovalsAux, hmd]
    · clear hmem
      by_cases hmd0 : strEndsWith f ".md" = true
      · cases oc with
        | none => simp [getPendingApprovalsAux, hmd0]
        | some c =>
          simp only [getPendingApprovalsAux, hmd0, if_true]
          rw [ih ⟨gc, hmem2, hmd, hnone⟩]
          rfl
      · simp only [getPendingApprovalsAux, hmd0, if_false]
        exact ih ⟨gc, hmem2, hmd, hnone⟩

/-- When every .md file of the bucket is readable, the loop succeeds and
returns exactly one record per .md file, in listing order. -/
theorem getPendingApprovalsAux_all_readable (ms : Int) :
    ∀ (lst : List (String × Option String)),
      (∀ fc ∈ lst, strEndsWith fc.1 ".md" = true → fc.2 ≠ none) →
      getPendingApprovalsAux ms lst =
        some (lst.filterMap (fun fc =>
          match fc.2 with
          | some c => if strEndsWith fc.1 ".md" = true then some (mkApproval fc.1 c ms) else none
          | none => none)) := by
  intro lst
  induction lst with
  | nil => intro _; rfl
  | cons fc rest ih =>
    intro h
    obtain ⟨f, oc⟩ := fc
    have hrest : ∀ fc ∈ rest, strEndsWith fc.1 ".md" = true → fc.2 ≠ none := by
      intro gc hg
      exact h gc (by simp [hg])
    by_cases hmd : strEndsWith f ".md" = true
    · cases oc with
      | none =>
        exact absurd rfl (h (f, none) (by simp) hmd)
      | some c =>
        simp only [getPendingApprovalsAux, hmd, if_true, ih hrest, Option.map_some']
        simp [List.filterMap_cons, hmd]
    · cases oc with
      | none =>
        simp only [getPendingApprovalsAux, hmd, if_false, ih hrest]
        simp [List.filterMap_cons]
      | some c =>
        simp only [getPendingApprovalsAux, hmd, if_false, ih hrest]
        simp [List.filterMap_cons, hmd]

/-- The record built for a file does not depend on the clock when the
filename id parses to a nonzero integer. -/
theorem mkApproval_ms_independent (f c : String) (n : Int) (ms1 ms2 : Int)
    (hn : parsedId f = some n) (hnz : n ≠ 0) :
    mkApproval f c ms1 = mkApproval f c ms2 := by
  simp [mkApproval, approvalIdOf, hn, if_neg hnz]

/-- The listing loop does not depend on the clock when every .md file of
the bucket has a nonzero parseable id. -/
theorem getPendingApprovalsAux_ms_independent :
    ∀ (lst : List (String × Option String)),
      (∀ fc ∈ lst, strEndsWith fc.1 ".md" = true → ∃ n, parsedId fc.1 = some n ∧ n ≠ 0) →
      ∀ ms1 ms2 : Int, getPendingApprovalsAux ms1 lst = getPendingApprovalsAux ms2 lst := by
  intro lst
  induction lst with
  | nil => intro _ ms1 ms2; rfl
  | cons fc rest ih =>
    intro h ms1 ms2
    obtain ⟨f, oc⟩ := fc
    have hrest : ∀ fc ∈ rest, strEndsWith fc.1 ".md" = true →
        ∃ n, parsedId fc.1 = some n ∧ n ≠ 0 := by
      intro gc hg
      exact h gc (by simp [hg])
    by_cases hmd : strEndsWith f ".md" = true
    · cases oc with
      | none => simp [getPendingApprovalsAux, hmd]
      | some c =>
        obtain ⟨n, hn, hnz⟩ := h (f, some c) (by simp) hmd
        simp only [getPendingApprovalsAux, hmd, if_true, ih hrest ms1 ms2,
          mkApproval_ms_independent f c n ms1 ms2 hn hnz]
    · simp only [getPendingApprovalsAux, hmd, if_false]
      exact ih hrest ms1 ms2

/-- Folding logAction over an already parsed bucket appends in order. -/
theorem foldl_logAction (es : List LogEntry) :
    ∀ (l : List LogEntry),
      es.foldl logAction (some (.parsed l)) = some (.parsed (l ++ es)) := by
  induction es with
  | nil => intro l; simp
  | cons e rest ih =>
    intro l
    have h1 : logAction (some (.parsed l)) e = some (.parsed (l ++ [e])) := rfl
    simp only [List.foldl_cons, h1, ih]
    simp

/-- appendAll over a nonempty entry sequence stores exactly that
sequence. -/
theorem appendAll_cons (e : LogEntry) (es : List LogEntry) :
    appendAll (e :: es) = some (.parsed (e :: es)) := by
  unfold appendAll
  have h1 : logAction none e = some (.parsed [e]) := rfl
  simp only [List.foldl_cons, h1, foldl_logAction]
  simp

/-! Concrete states used by witnesses and counterexamples. -/

/-- The empty vault. -/
def st0 : VaultState :=
  { pending := [], approvedDir := [], rejectedDir := [], log := none,
    dashboardFile := none, statsFile := none }

/-! Claim C3: append-only day-bucket log. -/

/-- An entry conceptually stored by a garbled day-bucket file. -/
def eC3old : LogEntry :=
  { timestamp := "2026-01-01T08:00:00.000Z", action_type := some "email_send",
    description := some "hello" }

/-- The entry appended on top of the garbled file. -/
def eC3new : LogEntry :=
  { timestamp := "2026-01-02T08:00:00.000Z", action_type := some "audit_completed" }

/-- Claim C3 as stated is false: when the stored content is present but
unparsable, append does not preserve the previously stored entry; the
rewritten file holds only the new entry. -/
theorem C3_append_only_counterexample :
    storedLogEntries (some (.corrupted [eC3old])) = [eC3old] ∧
    logAction (some (.corrupted [eC3old])) eC3new = some (.parsed [eC3new]) ∧
    storedLogEntries (logAction (some (.corrupted [eC3old])) eC3new) ≠ [eC3old, eC3new] := by
  refine ⟨rfl, rfl, ?_⟩
  decide

/-- Amended claim C3: when the day-bucket is absent or its content still
parses, append preserves every stored entry and adds the new one at the
end; when the content is present but unparsable, append replaces the
file with one holding only the new entry, discarding what was stored.
No other operation of this core rewrites the day-bucket file. -/
theorem C3_append_only_amended (e : LogEntry) (l : List LogEntry) (st : VaultState)
    (i : Int) (a ts : String) (act : Option String) :
    logAction none e = some (.parsed [e]) ∧
    logAction (some (.parsed l)) e = some (.parsed (l ++ [e])) ∧
    logAction (some (.corrupted l)) e = some (.parsed [e]) ∧
    (updateApprovalStatus st i a ts).1.log = st.log ∧
    (postProcess st act).1.log = st.log := by
  refine ⟨rfl, rfl, rfl, ?_, ?_⟩
  · unfold updateApprovalStatus
    cases st.pending.find? (fun fc => containsSubstr fc.1 (toString i)) with
    | none => rfl
    | some fc =>
      obtain ⟨f, oc⟩ := fc
      cases oc with
      | none =>
        by_cases ha : a = "approve" <;> simp [ha]
      | some c =>
        by_cases ha : a = "approve" <;> simp [ha]
  · unfold postProcess
    split <;> rfl

/-! Claim C4: recent activities ordering. -/

/-- First (older) entry of the two-entry day-bucket. -/
def eC4a : LogEntry :=
  { timestamp := "2026-01-03T09:00:00.000Z", action_type := some "email_send" }

/-- Second (newer) entry of the two-entry day-bucket. -/
def eC4b : LogEntry :=
  { timestamp := "2026-01-03T10:00:00.000Z", action_type := some "payment_processed" }

/-- A vault whose day-bucket holds the two entries in append order. -/
def stC4 : VaultState :=
  { pending := [], approvedDir := [], rejectedDir := [],
    log := some (.parsed [eC4a, eC4b]), dashboardFile := none, statsFile := none }

/-- Claim C4 as stated is false: the feed keeps the slice in append
order, oldest of the kept entries first, not most-recent-first. -/
theorem C4_recent_order_counterexample :
    getRecentActivities stC4 ⟨"T", 0⟩ = [mkActivity eC4a, mkActivity eC4b] ∧
    getRecentActivities stC4 ⟨"T", 0⟩ ≠ [mkActivity eC4b, mkActivity eC4a] := by
  refine ⟨rfl, ?_⟩
  decide

/-- Amended claim C4: after appending a nonempty sequence of entries
into a fresh day-bucket, the feed holds exactly the last ten (or all,
when fewer) appended entries, mapped to display activities in append
order, so the most recent entry is last; its length is the minimum of
ten and the number of entries.  With no append at all the feed is the
fixed sample sequence. -/
theorem C4_recent_order_amended (base : VaultState) (e : LogEntry) (es : List LogEntry)
    (clock : Clock) :
    getRecentActivities { base with log := appendAll (e :: es) } clock =
      ((e :: es).drop ((e :: es).length - 10)).map mkActivity ∧
    (getRecentActivities { base with log := appendAll (e :: es) } clock).length =
      min 10 (e :: es).length ∧
    getRecentActivities { base with log := appendAll [] } clock = getSampleActivities clock := by
  refine ⟨?_, ?_, rfl⟩
  · show getRecentActivities { base with log := appendAll (e :: es) } clock = _
    unfold getRecentActivities
    rw [show ({ base with log := appendAll (e :: es) } : VaultState).log =
      appendAll (e :: es) from rfl, appendAll_cons]
  · unfold getRecentActivities
    rw [show ({ base with log := appendAll (e :: es) } : VaultState).log =
      appendAll (e :: es) from rfl, appendAll_cons]
    simp only [List.length_map, List.length_drop]
    omega

/-! Claim C5: the rejected status value. -/

/-- A pending payment request awaiting decision. -/
def stC5 : VaultState :=
  { pending := [("approval_7_pay.md", some "---\nstatus: pending\n---\n")],
    approvedDir := [], rejectedDir := [], log := none,
    dashboardFile := none, statsFile := none }

/-- The code at the failing input of claim C5: rejecting request 7 moves
the file into Rejected but rewrites its status header to rejectd (the
action name with a bare d appended), so the stored status is not the
claimed value rejected and lies outside the three-value set. -/
theorem C5_reject_status_code_behavior :
    (updateApprovalStatus stC5 7 "reject" "2026-01-01T00:00:00.000Z").1.rejectedDir =
      [("approval_7_pay.md",
        some "---\nstatus: rejectd\napproved_at: 2026-01-01T00:00:00.000Z\n---\n")] ∧
    containsSubstr "---\nstatus: rejectd\napproved_at: 2026-01-01T00:00:00.000Z\n---\n"
      "status: rejected" = false ∧
    containsSubstr "---\nstatus: rejectd\napproved_at: 2026-01-01T00:00:00.000Z\n---\n"
      "status: rejectd" = true := by
  refine ⟨?_, by decide, by decide⟩
  decide

/-! Claim C7: unknown processing action. -/

/-- Claim C7 as stated is false: an unknown action name is answered with
HTTP 500, a server-fault status, not a 4xx client error. -/
theorem C7_unknown_action_counterexample :
    (postProcess st0 (some "foo")).2.status = 500 ∧
    ¬(400 ≤ (postProcess st0 (some "foo")).2.status ∧
      (postProcess st0 (some "foo")).2.status < 500) := by
  refine ⟨rfl, ?_⟩
  decide

/-- Amended claim C7: a trigger-processing request whose action is not
one of the four fixed names is answered with a 500 error reply carrying
the Unknown action message; the process does not crash and the state is
unchanged. -/
theorem C7_unknown_action_amended (st : VaultState) (act : Option String)
    (h1 : act ≠ some "emails") (h2 : act ≠ some "whatsapp")
    (h3 : act ≠ some "audit") (h4 : act ≠ some "report") :
    postProcess st act =
      (st, { status := 500, success := false, message := "Unknown action" }) := by
  unfold postProcess
  split <;> simp_all

/-- Concrete instance of the amended claim C7. -/
theorem C7_unknown_action_witness :
    (some "foo" ≠ some "emails") ∧
    postProcess st0 (some "foo") =
      (st0, { status := 500, success := false, message := "Unknown action" }) :=
  ⟨by decide,
   C7_unknown_action_amended st0 (some "foo") (by decide) (by decide) (by decide) (by decide)⟩

/-! Claim C10: fallback by falsiness in the stats counters. -/

/-- Claim C10 holds: a stats side-file that parses but stores 0 in a
counter is reported as the compiled-in default for that counter, because
the fallback tests JS falsiness, not key absence. -/
theorem C10_falsy_zero_defaults (base : VaultState) (clock : Clock) (x y z : Option ℚ) :
    (getDashboardData
      { base with statsFile := some (.parsed
        { weeklyRevenue := some 0, pendingTasks := x, unreadMessages := y, aiUptime := z }) }
      clock).stats.weeklyRevenue = 2450 ∧
    (getDashboardData
      { base with statsFile := some (.parsed
        { weeklyRevenue := x, pendingTasks := some 0, unreadMessages := y, aiUptime := z }) }
      clock).stats.pendingTasks = 8 ∧
    (getDashboardData
      { base with statsFile := some (.parsed
        { weeklyRevenue := x, pendingTasks := y, unreadMessages := some 0, aiUptime := z }) }
      clock).stats.unreadMessages = 5 ∧
    (getDashboardData
      { base with statsFile := some (.parsed
        { weeklyRevenue := x, pendingTasks := y, unreadMessages := z, aiUptime := some 0 }) }
      clock).stats.aiUptime = (99.8 : ℚ) := by
  refine ⟨?_, ?_, ?_, ?_⟩ <;>
    (cases hbd : base.dashboardFile <;>
      simp [getDashboardData, mkSnapshot, getDefaultDashboardData, jsOr, hbd])

/-! Claim C1: deciding on an id that matches no pending file. -/

/-- A vault with one pending request, id 7. -/
def stC1 : VaultState :=
  { pending := [("approval_7_pay.md", some "---\nstatus: pending\n---\n")],
    approvedDir := [], rejectedDir := [], log := none,
    dashboardFile := none, statsFile := none }

/-- Claim C1 as stated is false: deciding on id 9, which matches no
pending file, is answered with the plain success reply rather than a
not-found outcome, and a decision entry is still appended to the day
bucket. -/
theorem C1_not_found_counterexample :
    (∀ fc ∈ stC1.pending, containsSubstr fc.1 (toString (9 : Int)) = false) ∧
    (postApprove stC1 (some 9) (some "approve") ⟨"T", 0⟩).2 =
      { status := 200, success := true, message := "Action approved successfully" } ∧
    storedLogEntries (postApprove stC1 (some 9) (some "approve") ⟨"T", 0⟩).1.log =
      [approvalLogEntry 9 "approve" "T"] ∧
    storedLogEntries stC1.log = [] := by
  refine ⟨by decide, by decide, by decide, rfl⟩

/-- Amended claim C1: when a validated decision names an id contained in
no pending filename, no file is moved or rewritten — the three buckets
are untouched — but the operation does not signal not-found: it replies
with the ordinary success message and still appends an activity log
entry recording the decision. -/
theorem C1_not_found_amended (st : VaultState) (i : Int) (a : String) (clock : Clock)
    (hi : i ≠ 0) (ha : a ≠ "")
    (hnf : ∀ fc ∈ st.pending, containsSubstr fc.1 (toString i) = false) :
    postApprove st (some i) (some a) clock =
      ({ st with log := logAction st.log (approvalLogEntry i a clock.isoNow) },
       { status := 200, success := true, message := "Action " ++ a ++ "d successfully" }) := by
  have hfind : st.pending.find? (fun fc => containsSubstr fc.1 (toString i)) = none :=
    List.find?_eq_none.mpr (by intro x hx; simp [hnf x hx])
  have hupd : updateApprovalStatus st i a clock.isoNow = (st, true) := by
    unfold updateApprovalStatus
    rw [hfind]
  simp only [postApprove, hupd]
  rw [if_neg (not_or.mpr ⟨hi, ha⟩)]

/-- Concrete instance of the amended claim C1. -/
theorem C1_not_found_witness :
    (3 : Int) ≠ 0 ∧
    (∀ fc ∈ stC1.pending, containsSubstr fc.1 (toString (3 : Int)) = false) ∧
    postApprove stC1 (some 3) (some "approve") ⟨"T", 0⟩ =
      ({ stC1 with log := logAction stC1.log (approvalLogEntry 3 "approve" "T") },
       { status := 200, success := true, message := "Action approved successfully" }) :=
  ⟨by decide, by decide,
   C1_not_found_amended stC1 3 "approve" ⟨"T", 0⟩ (by decide) (by decide) (by decide)⟩

/-! Claim C9: clock-free idempotence of the pending listing. -/

/-- A pending bucket holding a .md file whose name encodes no numeric
identifier. -/
def stC9 : VaultState :=
  { pending := [("note.md", some "")], approvedDir := [], rejectedDir := [],
    log := none, dashboardFile := none, statsFile := none }

/-- Claim C9 as stated is false: for a file without a parseable numeric
id the record id is Date.now(), so two calls at different instants
disagree field for field. -/
theorem C9_idempotent_counterexample :
    getPendingApprovals stC9 1 ≠ getPendingApprovals stC9 2 := by
  decide

/-- Amended claim C9: two listings with no intervening writes agree
record for record provided every .md file of the pending bucket has a
second underscore segment parsing to a nonzero integer; otherwise the id
field is the clock value of the call and can differ between calls. -/
theorem C9_idempotent_amended (st : VaultState) (ms1 ms2 : Int)
    (h : ∀ fc ∈ st.pending, strEndsWith fc.1 ".md" = true →
      ∃ n, parsedId fc.1 = some n ∧ n ≠ 0) :
    getPendingApprovals st ms1 = getPendingApprovals st ms2 := by
  unfold getPendingApprovals
  rw [getPendingApprovalsAux_ms_independent st.pending h ms1 ms2]

/-- A pending bucket whose single file has the parseable nonzero id 4. -/
def stC9w : VaultState :=
  { pending := [("approval_4_mail.md", some "---\nsubject: m\n---\n")],
    approvedDir := [], rejectedDir := [], log := none,
    dashboardFile := none, statsFile := none }

/-- Concrete instance of the amended claim C9. -/
theorem C9_idempotent_witness :
    (∀ fc ∈ stC9w.pending, strEndsWith fc.1 ".md" = true →
      ∃ n, parsedId fc.1 = some n ∧ n ≠ 0) ∧
    getPendingApprovals stC9w 1 = getPendingApprovals stC9w 2 :=
  ⟨by decide, C9_idempotent_amended stC9w 1 2 (by decide)⟩

/-! Claim C8: tolerance of the pending listing. -/

/-- A bucket with one well-formed request followed by an unreadable
file. -/
def stC8 : VaultState :=
  { pending := [("approval_1_a.md", some "---\nsubject: hi\n---\n"),
                ("approval_2_b.md", none)],
    approvedDir := [], rejectedDir := [], log := none,
    dashboardFile := none, statsFile := none }

/-- Claim C8 as stated is false: one unreadable file makes the whole
listing come back empty, hiding the well-formed pending request that is
present in the bucket. -/
theorem C8_tolerant_counterexample :
    ("approval_1_a.md", some "---\nsubject: hi\n---\n") ∈ stC8.pending ∧
    getPendingApprovals stC8 0 = [] := by
  refine ⟨by decide, ?_⟩
  decide

/-- Amended claim C8: a file whose header is missing or malformed is
tolerated — it yields a record with empty or default optional fields and
every readable file still contributes exactly one record — but an
unreadable file is not: if reading any .md file fails the entire listing
returns empty, so other pending requests do not remain visible. -/
theorem C8_tolerant_amended (st : VaultState) (ms : Int) (f c : String) :
    ((∃ fc ∈ st.pending, strEndsWith fc.1 ".md" = true ∧ fc.2 = none) →
      getPendingApprovals st ms = []) ∧
    ((∀ fc ∈ st.pending, strEndsWith fc.1 ".md" = true → fc.2 ≠ none) →
      getPendingApprovals st ms = st.pending.filterMap (fun fc =>
        match fc.2 with
        | some c2 => if strEndsWith fc.1 ".md" = true then some (mkApproval fc.1 c2 ms)
                     else none
        | none => none)) ∧
    (parseFrontmatter c = [] →
      (mkApproval f c ms).title = none ∧
      (mkApproval f c ms).description = "Requires approval" ∧
      (mkApproval f c ms).amount = none ∧
      (mkApproval f c ms).recipient = "Unknown") := by
  refine ⟨?_, ?_, ?_⟩
  · intro h
    unfold getPendingApprovals
    rw [getPendingApprovalsAux_eq_none ms st.pending h]
    rfl
  · intro h
    unfold getPendingApprovals
    rw [getPendingApprovalsAux_all_readable ms st.pending h]
    rfl
  · intro h
    simp [mkApproval, h, objGet, jsStrTruthy, jsStrOr]

/-- A bucket of two readable files, the second without any frontmatter
header. -/
def stC8w : VaultState :=
  { pending := [("approval_1_a.md", some "---\nsubject: hi\n---\n"),
                ("nofront.md", some "plain body")],
    approvedDir := [], rejectedDir := [], log := none,
    dashboardFile := none, statsFile := none }

/-- Concrete instance of the amended claim C8: the unreadable bucket
lists as empty, the all-readable bucket lists both files including the
headerless one, and the headerless record carries the default fields. -/
theorem C8_tolerant_witness :
    getPendingApprovals stC8 0 = [] ∧
    getPendingApprovals stC8w 0 = stC8w.pending.filterMap (fun fc =>
      match fc.2 with
      | some c2 => if strEndsWith fc.1 ".md" = true then some (mkApproval fc.1 c2 0)
                   else none
      | none => none) ∧
    (mkApproval "nofront.md" "plain body" 0).title = none ∧
    (mkApproval "nofront.md" "plain body" 0).description = "Requires approval" ∧
    (mkApproval "nofront.md" "plain body" 0).amount = none ∧
    (mkApproval "nofront.md" "plain body" 0).recipient = "Unknown" :=
  ⟨(C8_tolerant_amended stC8 0 "" "").1 (by decide),
   (C8_tolerant_amended stC8w 0 "" "").2.1 (by decide),
   (C8_tolerant_amended stC8 0 "nofront.md" "plain body").2.2 (by decide)⟩

/-! Claim C6: partial degradation of the dashboard snapshot. -/

/-- A vault with a live pending request, a parsed stats file, and a
Dashboard.md whose read fails. -/
def stC6 : VaultState :=
  { pending := [("approval_3_x.md", some "---\nsubject: s\n---\n")],
    approvedDir := [], rejectedDir := [], log := none,
    dashboardFile := none, statsFile := some (.parsed {}) }

/-- Claim C6 as stated is false: when the Dashboard.md read fails while
the stats side reads fine, the snapshot is the static default with an
empty pendingApprovals list even though the live repository holds a
pending request. -/
theorem C6_degradation_counterexample :
    (getDashboardData stC6 ⟨"T", 0⟩).pendingApprovals = [] ∧
    getPendingApprovals stC6 0 ≠ [] := by
  refine ⟨rfl, ?_⟩
  decide

/-- Amended claim C6: only a failing stats-file read degrades partially,
keeping the live pendingApprovals and recentActivities and substituting
the default counters; a failing Dashboard.md read, or stats content that
fails to parse, degrades totally to the static default snapshot, whose
live lists are not populated from the repository. -/
theorem C6_degradation_amended (base : VaultState) (d : String) (s : StatsJson)
    (clock : Clock) :
    getDashboardData { base with dashboardFile := none } clock =
      getDefaultDashboardData clock ∧
    getDashboardData { base with dashboardFile := some d, statsFile := some .corrupted }
      clock = getDefaultDashboardData clock ∧
    getDashboardData { base with dashboardFile := some d, statsFile := none } clock =
      { aiActive := true
        pendingApprovals :=
          getPendingApprovals { base with dashboardFile := some d, statsFile := none } clock.ms
        recentActivities :=
          getRecentActivities { base with dashboardFile := some d, statsFile := none } clock
        stats := { weeklyRevenue := 2450, pendingTasks := 8, unreadMessages := 5,
                   aiUptime := (99.8 : ℚ) }
        dashboardContent := d } ∧
    getDashboardData { base with dashboardFile := some d, statsFile := some (.parsed s) }
      clock =
      { aiActive := true
        pendingApprovals := getPendingApprovals
          { base with dashboardFile := some d, statsFile := some (.parsed s) } clock.ms
        recentActivities := getRecentActivities
          { base with dashboardFile := some d, statsFile := some (.parsed s) } clock
        stats := { weeklyRevenue := jsOr s.weeklyRevenue 2450
                   pendingTasks := jsOr s.pendingTasks 8
                   unreadMessages := jsOr s.unreadMessages 5
                   aiUptime := jsOr s.aiUptime (99.8 : ℚ) }
        dashboardContent := d } :=
  ⟨rfl, rfl, rfl, rfl⟩

/-! Claim C2: approve moves the request out of the pending listing. -/

/-- A bucket holding request 12 before request 1, both pending; the
decimal string of id 1 is a substring of the other filename. -/
def stC2 : VaultState :=
  { pending := [("approval_12_b.md", some "---\nstatus: pending\n---\n"),
                ("approval_1_a.md", some "---\nstatus: pending\n---\n")],
    approvedDir := [], rejectedDir := [], log := none,
    dashboardFile := none, statsFile := none }

/-- Claim C2 as stated is false: request 1 is pending with the pending
status line, yet decide(1, approve) moves approval_12_b.md — the first
filename containing the substring 1 — so the follow-up listing still
includes id 1 and the backing file of request 1 never reaches the
Approved bucket. -/
theorem C2_approve_listing_counterexample :
    (getPendingApprovals stC2 0).map (fun r => r.id) = [12, 1] ∧
    (getPendingApprovals (updateApprovalStatus stC2 1 "approve" "T").1 0).map
      (fun r => r.id) = [1] ∧
    ((updateApprovalStatus stC2 1 "approve" "T").1).approvedDir.map Prod.fst =
      ["approval_12_b.md"] := by
  refine ⟨by decide, by decide, by decide⟩

/-- Amended claim C2: provided the first pending file whose name
contains the decimal string of the id is the readable
backing file, its content carries the pending status line, and no other
pending .md file lists under the same id, then approve succeeds, the
follow-up listing no longer includes the id, and the backing file sits
in the Approved bucket with the status line rewritten to approved plus a
decision timestamp. -/
theorem C2_approve_listing_amended (st : VaultState) (i ms : Int) (f c ts : String)
    (hfind : st.pending.find? (fun fc => containsSubstr fc.1 (toString i)) = some (f, some c))
    (hc : ∃ p0 p1 rest, jsSplit c "status: pending" = p0 :: p1 :: rest)
    (hid : ∀ gc ∈ st.pending, gc.1 ≠ f → strEndsWith gc.1 ".md" = true →
      approvalIdOf gc.1 ms ≠ i) :
    (updateApprovalStatus st i "approve" ts).2 = true ∧
    (∀ r ∈ getPendingApprovals (updateApprovalStatus st i "approve" ts).1 ms, r.id ≠ i) ∧
    (∃ p q, (f, some (p ++ decidedStatusLine "approve" ts ++ q)) ∈
      (updateApprovalStatus st i "approve" ts).1.approvedDir) := by
  obtain ⟨p0, p1, rest, hsplit⟩ := hc
  have hupd : updateApprovalStatus st i "approve" ts =
      ({ st with
          pending := st.pending.filter (fun gc => gc.1 != f)
          approvedDir := st.approvedDir ++
            [(f, some (jsReplaceFirst c "status: pending" (decidedStatusLine "approve" ts)))] },
       true) := by
    unfold updateApprovalStatus
    rw [hfind]
    rfl
  refine ⟨by rw [hupd], ?_, ?_⟩
  · intro r hr
    rw [hupd] at hr
    obtain ⟨g, c2, hmem, hmd, hre⟩ := mem_getPendingApprovals _ ms r hr
    have hmem2 := List.mem_filter.mp hmem
    have hgf : g ≠ f := by
      have hb := hmem2.2
      simp only [bne_iff_ne, ne_eq] at hb
      exact hb
    subst hre
    exact hid (g, some c2) hmem2.1 hgf hmd
  · refine ⟨p0, joinWithStr "status: pending" (p1 :: rest), ?_⟩
    have hrepl : jsReplaceFirst c "status: pending" (decidedStatusLine "approve" ts) =
        p0 ++ decidedStatusLine "approve" ts ++ joinWithStr "status: pending" (p1 :: rest) := by
      unfold jsReplaceFirst
      rw [hsplit]
    rw [hupd, ← hrepl]
    simp

/-- A bucket with a single pending payment request, id 5. -/
def stC2w : VaultState :=
  { pending := [("approval_5_pay.md", some "---\nstatus: pending\namount: 89\n---\n")],
    approvedDir := [], rejectedDir := [], log := none,
    dashboardFile := none, statsFile := none }

/-- Concrete instance of the amended claim C2. -/
theorem C2_approve_listing_witness :
    stC2w.pending.find? (fun fc => containsSubstr fc.1 (toString (5 : Int))) =
      some ("approval_5_pay.md", some "---\nstatus: pending\namount: 89\n---\n") ∧
    ((updateApprovalStatus stC2w 5 "approve" "T").2 = true ∧
     (∀ r ∈ getPendingApprovals (updateApprovalStatus stC2w 5 "approve" "T").1 0, r.id ≠ 5) ∧
     (∃ p q, ("approval_5_pay.md", some (p ++ decidedStatusLine "approve" "T" ++ q)) ∈
       (updateApprovalStatus stC2w 5 "approve" "T").1.approvedDir)) :=
  ⟨by decide,
   C2_approve_listing_amended stC2w 5 0 "approval_5_pay.md"
     "---\nstatus: pending\namount: 89\n---\n" "T" (by decide)
     ⟨"---\n", "\namount: 89\n---\n", [], by decide⟩
     (by intro gc hg h1 h2; simp [stC2w] at hg; simp [hg] at h1)⟩

end AIEmployee
